import Mathlib

/-!
Verification of the keiba-auto-gist-updater scoring/selection/reconciliation
scripts, as a shallow embedding in Lean.

Conventions used throughout:
* Python dict records become Lean structures; Japanese JSON keys are kept in
  the field doc comments (`距離`, `着順`, ...).
* Python `int(...)` string parsing is modelled on `List Char`
  (`digitsVal` / `intOfChars`): a parse failure caught by a bare
  `try/except: pass` becomes `Option.none`.
* Python float arithmetic on small integer counts is modelled over `ℚ`
  (thresholds such as `0.30` become `3/10`); `round(x, 1)` is the identity
  on the integer-valued scores produced here and is omitted.
* Python `sorted` on numbers is `List.insertionSort` (stable, like Python);
  `sorted` on strings uses code-point lexicographic order (`strLeB`).
-/

/-- Value of a nonempty all-digit character list (Python `int` on digits);
`none` on the empty list or any non-digit character. -/
def digitsVal : List Char → Option Nat
  | [] => none
  | c :: cs =>
    (c :: cs).foldl
      (fun acc ch =>
        acc.bind (fun n => if ch.isDigit then some (n * 10 + (ch.toNat - 48)) else none))
      (some 0)

/-- Python `int(s)` on a trimmed decimal string: optional sign then digits. -/
def intOfChars : List Char → Option Int
  | '-' :: rest => (digitsVal rest).map (fun n => -(n : Int))
  | '+' :: rest => (digitsVal rest).map (fun n => (n : Int))
  | cs => (digitsVal cs).map (fun n => (n : Int))

/-- Python `int(s.split('(')[0])`: parse the segment before the first `(`.
Used for `着順` strings such as `"1(1)"` and `馬体重` strings such as `"478(+6)"`. -/
def intBeforeParen (s : String) : Option Int :=
  intOfChars (s.toList.takeWhile (fun c => c ≠ '('))

/-- Python `int(s.split('-')[0])`: the first corner-passage number of a
`コーナー通過順` string such as `"4-4-5-4"`; `none` when empty or unparsable. -/
def firstCornerNum (s : String) : Option Int :=
  intOfChars (s.toList.takeWhile (fun c => c ≠ '-'))

/-- Python `sorted` on a list of ints (`馬番` values). -/
def sortNat (l : List Nat) : List Nat := List.insertionSort (· ≤ ·) l

/-- Python `sorted(..., reverse=True)` on floats: stable descending sort. -/
def sortQdesc (l : List ℚ) : List ℚ := List.insertionSort (fun a b => b ≤ a) l

/-- Strict code-point comparison of two character lists, matching Python's
`<` on strings. -/
def charListLt : List Char → List Char → Bool
  | [], [] => false
  | [], _ :: _ => true
  | _ :: _, [] => false
  | a :: as, b :: bs => if a < b then true else if b < a then false else charListLt as bs

/-- Python `a <= b` on strings (code-point lexicographic). -/
def strLeB (a b : String) : Bool := !(charListLt b.toList a.toList)

/-- Python `sorted` on a list of strings. -/
def sortStrs (l : List String) : List String :=
  List.insertionSort (fun a b => strLeB a b = true) l

/-- Helper for `splitOnDash`: accumulate the current segment (reversed). -/
def splitOnDashAux : List Char → List Char → List (List Char)
  | [], cur => [cur.reverse]
  | c :: rest, cur =>
    if c = '-' then cur.reverse :: splitOnDashAux rest []
    else splitOnDashAux rest (c :: cur)

/-- Python `s.split('-')`. -/
def splitOnDash (s : String) : List String :=
  (splitOnDashAux s.toList []).map (fun cs => String.mk cs)

namespace DesScore

/-! Embedding of `scripts/calculate_des_score.py` (the A–D composite scorer). -/

/-- One entry of a horse's `past_races` list, with the fields this script reads. -/
structure PastRace where
  /-- `距離`, already `int(...)`-converted as on line 47 of the script. -/
  distance : Int
  /-- `距離種別` (surface of the past race). -/
  track : String
  /-- `着順` as the raw string, e.g. `"1"` or `"1(1)"`. -/
  rankText : String
  /-- `馬体重` as the raw string, e.g. `"478(+6)"`; `"0(0)"` when missing. -/
  bodyWeight : String
  /-- `騎手` of the past race. -/
  jockey : String
  /-- `コーナー通過順`, e.g. `"4-4-5-4"`; `""` when missing. -/
  corner : String
deriving DecidableEq, Repr

/-- A horse entry with the fields `calculate_des_score` reads. -/
structure Horse where
  /-- `騎手` (today's jockey); `""` when missing. -/
  jockey : String
  /-- `厩舎` (trainer/stable); `""` when missing. -/
  trainer : String
  /-- `枠番` (draw/frame number); `0` when missing, matching `.get('枠番', 0)`. -/
  waku : Int
  /-- `past_races`. -/
  past_races : List PastRace
deriving DecidableEq, Repr

/-- The race-level fields the scorer reads (`race_info`). -/
structure RaceInfo where
  /-- `距離` (today's race distance); `0` when missing. -/
  distance : Int
  /-- `トラック` (surface); `""` when missing. -/
  track : String
deriving DecidableEq, Repr

/-- Points one past race contributes to the same-distance/same-surface part of
the A score (`±200m`, rank 1/2/3 → 10/7/3; unparsable rank → 0 via the
`try/except`). -/
def samePastCondPoints (ri : RaceInfo) (r : PastRace) : Int :=
  if |r.distance - ri.distance| ≤ 200 ∧ r.track = ri.track then
    match intBeforeParen r.rankText with
    | some rank => if rank = 1 then 10 else if rank = 2 then 7 else if rank = 3 then 3 else 0
    | none => 0
  else 0

/-- Part 2 of the A score: trend over the three most recent races.  The whole
block is wrapped in one `try`, so a single unparsable `着順` aborts it (the
`Option.none` branch). -/
def recentTrendPoints (past : List PastRace) : Int :=
  let recent3 := past.take 3
  if 2 ≤ recent3.length then
    match recent3.mapM (fun r => intBeforeParen r.rankText) with
    | some [a, b, c] =>
      if a < b ∧ b < c then 10
      else if a ≤ 3 ∧ b ≤ 3 ∧ c ≤ 3 then 7
      else 0
    | _ => 0
  else 0

/-- Part 3 of the A score: win rate / place rate over the last five races
(`win_rate ≥ 0.10` → +5, `place_rate ≥ 0.30` → +5, independently). -/
def winPlaceRatePoints (past : List PastRace) : Int :=
  let recent5 := past.take 5
  let wins := recent5.countP (fun r => intBeforeParen r.rankText = some 1)
  let places := recent5.countP
    (fun r => intBeforeParen r.rankText = some 1 ∨ intBeforeParen r.rankText = some 2)
  (if (1 : ℚ)/10 ≤ (wins : ℚ) / recent5.length then 5 else 0)
    + (if (3 : ℚ)/10 ≤ (places : ℚ) / recent5.length then 5 else 0)

/-- `calculate_past_performance_score` — the A axis (documented max 40). -/
def calculate_past_performance_score (horse : Horse) (ri : RaceInfo) : Int :=
  if horse.past_races = [] then 0
  else
    min ((horse.past_races.map (samePastCondPoints ri)).sum) 20
      + recentTrendPoints horse.past_races
      + winPlaceRatePoints horse.past_races

/-- Whether a past race's `着順` parses to a rank ≤ `k` (the `rank <= k`
checks inside B's loops, skipped on parse failure). -/
def rankAtMost (k : Int) (r : PastRace) : Bool :=
  match intBeforeParen r.rankText with
  | some rank => rank ≤ k
  | none => false

/-- `calculate_pedigree_score` — the B axis (documented max 30).
Distance-band placement rate (`±300m`), same-surface placement rate, and the
body-weight stability adjustment (`+5` / `−3`). -/
def calculate_pedigree_score (horse : Horse) (ri : RaceInfo) : Int :=
  let past := horse.past_races
  let sdCount := past.countP (fun r => |r.distance - ri.distance| ≤ 300)
  let sdPerf := past.countP (fun r => decide (|r.distance - ri.distance| ≤ 300) && rankAtMost 3 r)
  let p1 : Int :=
    if 0 < sdCount then
      if (1 : ℚ)/2 ≤ (sdPerf : ℚ) / sdCount then 15
      else if (3 : ℚ)/10 ≤ (sdPerf : ℚ) / sdCount then 8
      else 0
    else 0
  let tCount := past.countP (fun r => r.track = ri.track)
  let tPerf := past.countP (fun r => decide (r.track = ri.track) && rankAtMost 3 r)
  let p2 : Int :=
    if 0 < tCount then
      if (2 : ℚ)/5 ≤ (tPerf : ℚ) / tCount then 10
      else if (1 : ℚ)/5 ≤ (tPerf : ℚ) / tCount then 5
      else 0
    else 0
  let p3 : Int :=
    match past with
    | r1 :: r2 :: _ =>
      match intBeforeParen r1.bodyWeight, intBeforeParen r2.bodyWeight with
      | some w1, some w2 =>
        if |w1 - w2| ≤ 3 then 5 else if 10 ≤ |w1 - w2| then -3 else 0
      | _, _ => 0
    | _ => 0
  p1 + p2 + p3

/-- `calculate_jockey_trainer_score` — the C axis (documented max 20).
Jockey win rate over past races ridden by the same jockey, plus place rate
over the last five races. -/
def calculate_jockey_trainer_score (horse : Horse) (_ri : RaceInfo) : Int :=
  let past := horse.past_races
  let p1 : Int :=
    if horse.jockey ≠ "" then
      let jTotal := past.countP (fun r => r.jockey = horse.jockey)
      let jWins := past.countP
        (fun r => decide (r.jockey = horse.jockey) && decide (intBeforeParen r.rankText = some 1))
      if 0 < jTotal then
        if (3 : ℚ)/20 ≤ (jWins : ℚ) / jTotal then 10
        else if (1 : ℚ)/20 ≤ (jWins : ℚ) / jTotal then 5
        else 0
      else 0
    else 0
  let p2 : Int :=
    if horse.trainer ≠ "" ∧ horse.past_races ≠ [] then
      let recent5 := past.take 5
      let places := recent5.countP (rankAtMost 2)
      if (3 : ℚ)/10 ≤ (places : ℚ) / recent5.length then 10
      else if (1 : ℚ)/10 ≤ (places : ℚ) / recent5.length then 5
      else 0
    else 0
  p1 + p2

/-- `calculate_race_style_score` — the D axis (documented max 10).
Style inference from the first corner position of the last three races
(≤3 front-runner, ≥8 closer), plus the draw bonus (`枠番` ≤ 3 or ≥ 6 → +3). -/
def calculate_race_style_score (horse : Horse) (_ri : RaceInfo) : Int :=
  let past := horse.past_races
  let p1 : Int :=
    if past ≠ [] then
      let recent3 := past.take 3
      let frontCnt := recent3.countP
        (fun r => match firstCornerNum r.corner with | some p => p ≤ 3 | none => false)
      let closerCnt := recent3.countP
        (fun r => match firstCornerNum r.corner with | some p => 8 ≤ p | none => false)
      if 2 ≤ frontCnt then 7 else if 2 ≤ closerCnt then 7 else 3
    else 0
  let p2 : Int :=
    if horse.waku ≠ 0 ∧ (horse.waku ≤ 3 ∨ 6 ≤ horse.waku) then 3 else 0
  p1 + p2

/-- The `信頼度` (confidence) label returned inside `des_score`. -/
inductive Confidence where
  /-- `高` (total ≥ 75) -/
  | high
  /-- `中` (total ≥ 65) -/
  | mid
  /-- `低` (total ≥ 50) -/
  | low
  /-- `極低` (otherwise) -/
  | veryLow
deriving DecidableEq, Repr

/-- The `des_score` dict built by `calculate_des_score`. -/
structure Result where
  /-- `A_過去実績` -/
  a : Int
  /-- `B_距離馬場適性` -/
  b : Int
  /-- `C_騎手厩舎` -/
  c : Int
  /-- `D_展開適性` -/
  d : Int
  /-- `total` -/
  total : Int
  /-- `信頼度` -/
  confidence : Confidence
deriving DecidableEq, Repr

/-- `calculate_des_score`: the four sub-scores, their sum, and the
thresholded confidence label (75/65/50). -/
def calculate_des_score (horse : Horse) (ri : RaceInfo) : Result :=
  let a := calculate_past_performance_score horse ri
  let b := calculate_pedigree_score horse ri
  let c := calculate_jockey_trainer_score horse ri
  let d := calculate_race_style_score horse ri
  let total := a + b + c + d
  { a := a, b := b, c := c, d := d, total := total
    confidence :=
      if 75 ≤ total then .high
      else if 65 ≤ total then .mid
      else if 50 ≤ total then .low
      else .veryLow }

end DesScore

namespace SelectPred

/-! Embedding of `scripts/select_predictions.py` (volatility label and
betting-plan generation). -/

/-- A scored horse as read by this script (`馬番`, `馬名`,
`des_score.total` with `0` when missing). -/
structure SHorse where
  /-- `馬番` -/
  umaban : Nat
  /-- `馬名` -/
  name : String
  /-- `des_score.total` (`0` when `des_score` or `total` is missing). -/
  total : ℚ
deriving DecidableEq, Repr

/-- A race as read by this script. -/
structure SRace where
  /-- `race_id` -/
  race_id : String
  /-- `horses` -/
  horses : List SHorse
deriving DecidableEq, Repr

/-- The `波乱度` (volatility) label. -/
inductive Turb where
  /-- `低` -/
  | low
  /-- `中` -/
  | mid
  /-- `高` -/
  | high
deriving DecidableEq, Repr

/-- The DES totals of the race's horses (`scores` in `calculate_turbulence`). -/
def scoresOf (race : SRace) : List ℚ := race.horses.map (·.total)

/-- `scores.sort(reverse=True)`. -/
def sortedScores (race : SRace) : List ℚ := sortQdesc (scoresOf race)

/-- `top_3_avg`: mean of the three best totals, or of all totals when
fewer than three horses are present. -/
def topThreeAvg (race : SRace) : ℚ :=
  match sortedScores race with
  | a :: b :: c :: _ => (a + b + c) / 3
  | l => l.sum / l.length

/-- `score_diff`: the gap between the rank-1 and rank-3 totals
(`0` when fewer than three horses). -/
def scoreGap (race : SRace) : ℚ :=
  match sortedScores race with
  | a :: _ :: c :: _ => a - c
  | _ => 0

/-- `calculate_turbulence`: `低` needs average ≥ 70 AND gap ≥ 15;
`中` needs average ≥ 60 OR gap ≥ 10; otherwise `高`.  Empty input → `中`. -/
def calculate_turbulence (race : SRace) : Turb :=
  if race.horses.isEmpty then .mid
  else if (scoresOf race).isEmpty then .mid
  else if 70 ≤ topThreeAvg race ∧ 15 ≤ scoreGap race then .low
  else if 60 ≤ topThreeAvg race ∨ 10 ≤ scoreGap race then .mid
  else .high

/-- One pick (`軸` or `相手` entry) of a betting plan. -/
structure PickEntry where
  /-- `馬番` -/
  umaban : Nat
  /-- `馬名` -/
  name : String
  /-- `評価` (`◎`/`○`/`▲` for axis picks, `△` for opponents) -/
  mark : String
  /-- `スコア` -/
  score : ℚ
deriving DecidableEq, Repr

/-- The betting plan (`betting_plan`) built by `generate_betting_plan`. -/
structure BettingPlan where
  /-- `軸` (axis picks, ranks 1–3) -/
  axis : List PickEntry
  /-- `相手` (opponent picks, ranks 4–10) -/
  opponents : List PickEntry
  /-- `買い目タイプ` -/
  betType : String
  /-- `組み合わせ数` -/
  combos : Nat
deriving DecidableEq, Repr

/-- `sorted(horses, key=des_score.total, reverse=True)` (stable). -/
def sortedByScoreDesc (horses : List SHorse) : List SHorse :=
  List.insertionSort (fun a b => b.total ≤ a.total) horses

/-- `generate_betting_plan`: axis = ranks 1–3, opponents = ranks 4–10
(`top_10[3:10]`), one 3-horse-box combination. -/
def generate_betting_plan (race : SRace) : BettingPlan :=
  let top10 := (sortedByScoreDesc race.horses).take 10
  let axisH := top10.take 3
  let oppH := top10.drop 3
  { axis := (axisH.zip ["◎", "○", "▲"]).map
      (fun hm => ⟨hm.1.umaban, hm.1.name, hm.2, hm.1.total⟩),
    opponents := oppH.map (fun h => ⟨h.umaban, h.name, "△", h.total⟩),
    betType := "三連複フォーメーション（軸3頭BOX）",
    combos := 1 }

end SelectPred

namespace FinalOut

/-! Embedding of `scripts/generate_final_output.py` (`select_races`,
the 3–5 race selector over per-race predictions). -/

/-- A per-race prediction entry as read by `select_races` and
`calculate_race_priority` (remaining keys are not consulted). -/
structure Pred where
  /-- `race_id`, kept so distinct races compare unequal. -/
  race_id : String
  /-- `status` (`"予想完了"` when complete). -/
  status : String
  /-- `turbulence` (`"低"`, `"中"`, `"高"`, or `"不明"` when missing). -/
  turbulence : String
  /-- `predictions.honmei.total_score`. -/
  honmei_score : ℚ
deriving DecidableEq, Repr

/-- `calculate_race_priority`: an incomplete prediction gets `(9, 0.0)`,
otherwise priority 1/2/3 by volatility (9 for an unknown label) paired with
the top pick's total score. -/
def calculate_race_priority (p : Pred) : Nat × ℚ :=
  if p.status ≠ "予想完了" then (9, 0)
  else
    let pr := if p.turbulence = "低" then 1
      else if p.turbulence = "中" then 2
      else if p.turbulence = "高" then 3
      else 9
    (pr, p.honmei_score)

/-- Comparison used by `sorted(predictions, key=calculate_race_priority)`
(lexicographic on the key tuple). -/
def priLe (a b : Pred) : Prop :=
  (calculate_race_priority a).1 < (calculate_race_priority b).1
    ∨ ((calculate_race_priority a).1 = (calculate_race_priority b).1
        ∧ (calculate_race_priority a).2 ≤ (calculate_race_priority b).2)

instance : DecidableRel priLe := fun a b => by unfold priLe; infer_instance

/-- `sorted(predictions, key=calculate_race_priority)` (stable). -/
def priSorted (preds : List Pred) : List Pred := List.insertionSort priLe preds

/-- First selection loop: append every `低`/`中` race while fewer than
5 (`max_races`) are selected. -/
def pickLowMid : List Pred → List Pred → List Pred
  | [], sel => sel
  | p :: rest, sel =>
    if (p.turbulence = "低" ∨ p.turbulence = "中") ∧ sel.length < 5 then
      pickLowMid rest (sel ++ [p])
    else pickLowMid rest sel

/-- Fallback loop: append `高` races not already selected while fewer than
5 are selected, stopping as soon as 3 (`min_races`) are reached. -/
def addHighs : List Pred → List Pred → List Pred
  | [], sel => sel
  | p :: rest, sel =>
    if p.turbulence = "高" ∧ p ∉ sel ∧ sel.length < 5 then
      let sel2 := sel ++ [p]
      if 3 ≤ sel2.length then sel2 else addHighs rest sel2
    else addHighs rest sel

/-- `select_races` with the script's `min_races=3`, `max_races=5`:
low/medium-volatility races first, high-volatility ones only as a fallback
when fewer than 3 were selected. -/
def select_races (preds : List Pred) : List Pred :=
  let sorted := priSorted preds
  let selected := pickLowMid sorted []
  if selected.length < 3 then addHighs sorted selected else selected

/-- Count of `低`/`中` predictions in a list. -/
def countLowMid (preds : List Pred) : Nat :=
  preds.countP (fun p => p.turbulence = "低" ∨ p.turbulence = "中")

/-- Count of `高` predictions in a list. -/
def countHigh (preds : List Pred) : Nat :=
  preds.countP (fun p => p.turbulence = "高")

end FinalOut

namespace DesV2

/-! Embedding of `scripts/calculate_des.py` (`estimate_running_style`,
the running-style classifier). -/

/-- A past race as read by the classifier (`コーナー通過順` only). -/
structure PastRun where
  /-- `コーナー通過順`, e.g. `"4-4-5-4"`; `""` when missing. -/
  corner : String
deriving DecidableEq, Repr

/-- The counting loop over the most recent races: first corner position
≤ 2 votes front-runner (`逃げ`), ≤ 5 votes presser (`先行`), otherwise
closer (`差し`); an empty or unparsable corner string contributes nothing. -/
def styleVotesAux : List PastRun → Nat → Nat → Nat → Nat × Nat × Nat
  | [], f, m, c => (f, m, c)
  | r :: rest, f, m, c =>
    match firstCornerNum r.corner with
    | some pos =>
      if pos ≤ 2 then styleVotesAux rest (f + 1) m c
      else if pos ≤ 5 then styleVotesAux rest f (m + 1) c
      else styleVotesAux rest f m (c + 1)
    | none => styleVotesAux rest f m c

/-- `estimate_running_style`: majority vote over the last 5 races with ties
resolved in the order `逃げ` > `先行` > `差し`; no data or no votes → `不明`. -/
def estimate_running_style (past : List PastRun) : String :=
  if past.isEmpty then "不明"
  else
    let v := styleVotesAux (past.take 5) 0 0 0
    let mx := max v.1 (max v.2.1 v.2.2)
    if mx = 0 then "不明"
    else if v.1 = mx then "逃げ"
    else if v.2.1 = mx then "先行"
    else "差し"

/-- Count of front-runner votes in a list of races (first corner ≤ 2). -/
def frontVotesL (l : List PastRun) : Nat :=
  l.countP (fun r => match firstCornerNum r.corner with | some p => p ≤ 2 | none => false)

/-- Count of presser votes in a list of races (first corner in 3..5). -/
def midVotesL (l : List PastRun) : Nat :=
  l.countP (fun r => match firstCornerNum r.corner with | some p => 2 < p ∧ p ≤ 5 | none => false)

/-- Count of closer votes in a list of races (first corner > 5). -/
def closerVotesL (l : List PastRun) : Nat :=
  l.countP (fun r => match firstCornerNum r.corner with | some p => 5 < p | none => false)

/-- Front-runner votes over the most recent 5 races (spec reading). -/
def frontVotes (past : List PastRun) : Nat := frontVotesL (past.take 5)

/-- Presser votes over the most recent 5 races (spec reading). -/
def midVotes (past : List PastRun) : Nat := midVotesL (past.take 5)

/-- Closer votes over the most recent 5 races (spec reading). -/
def closerVotes (past : List PastRun) : Nat := closerVotesL (past.take 5)

/-- The classifier as the amended claim words it: unweighted votes over the
most recent 5 races, buckets ≤2 / ≤5 / >5, winner by the fixed priority
front-runner > presser > closer, `不明` when no race yields a vote. -/
def running_style_claimed (past : List PastRun) : String :=
  if past.isEmpty then "不明"
  else
    let f := frontVotes past
    let m := midVotes past
    let c := closerVotes past
    let mx := max f (max m c)
    if mx = 0 then "不明"
    else if f = mx then "逃げ"
    else if m = mx then "先行"
    else "差し"

end DesV2

namespace PaceInfo

/-! Embedding of `scripts/add_pace_info.py` (`analyze_pace_from_horses`). -/

/-- A horse as read by the pace classifier: its `推定脚質` label when the
key is present. -/
structure PHorse where
  /-- `推定脚質` (`none` when the key is absent). -/
  runstyle : Option String
deriving DecidableEq, Repr

/-- The extracted label list
(`[h['推定脚質'] for h in horses if '推定脚質' in h]`). -/
def runstylesOf (horses : List PHorse) : List String :=
  horses.filterMap (·.runstyle)

/-- Front-runner (`逃げ`) label count. -/
def nigeCount (horses : List PHorse) : Nat :=
  (runstylesOf horses).countP (fun s => s = "逃げ")

/-- Presser (`先行`) label count. -/
def senkouCount (horses : List PHorse) : Nat :=
  (runstylesOf horses).countP (fun s => s = "先行")

/-- `analyze_pace_from_horses`: `ハイペース` when front-runners ≥ 3 or
(front+pressers)/total ≥ 0.5, else `スローペース` when front-runners ≤ 1,
else `ミドルペース`; no labelled horses → `ミドルペース`. -/
def analyze_pace_from_horses (horses : List PHorse) : String :=
  let runstyles := runstylesOf horses
  if runstyles.isEmpty then "ミドルペース"
  else
    let nige := nigeCount horses
    let senkou := senkouCount horses
    let total := runstyles.length
    if 3 ≤ nige ∨ (1 : ℚ)/2 ≤ ((nige : ℚ) + senkou) / total then "ハイペース"
    else if nige ≤ 1 then "スローペース"
    else "ミドルペース"

end PaceInfo

namespace WeeklyTrack

/-! Embedding of `scripts/weekly_tracker.py` (`WeeklyTracker`). -/

/-- One entry of `daily_records`. -/
structure DailyRecord where
  /-- `date` -/
  date : String
  /-- `invested` -/
  invested : Int
  /-- `returns` -/
  returns : Int
  /-- `profit` -/
  profit : Int
  /-- `race_count` -/
  race_count : Nat
  /-- `balance` -/
  balance : Int
deriving DecidableEq, Repr

/-- The tracker's persisted `data` dict (start/end dates omitted: no
arithmetic reads them). -/
structure TrackerData where
  /-- `initial_budget` -/
  initial_budget : Int
  /-- `invested` (cumulative) -/
  invested : Int
  /-- `returns` (cumulative) -/
  returns : Int
  /-- `balance` -/
  balance : Int
  /-- `daily_records` -/
  daily_records : List DailyRecord
deriving DecidableEq, Repr

/-- `initialize_week(initial_budget)`: fresh state with
`balance = initial_budget`. -/
def initWeek (initial_budget : Int) : TrackerData :=
  { initial_budget := initial_budget, invested := 0, returns := 0,
    balance := initial_budget, daily_records := [] }

/-- `add_daily_record`: accumulate and recompute
`balance = initial_budget - invested + returns`. -/
def add_daily_record (s : TrackerData) (date : String) (invested returns : Int)
    (race_count : Nat) : TrackerData :=
  let invested2 := s.invested + invested
  let returns2 := s.returns + returns
  let balance2 := s.initial_budget - invested2 + returns2
  { initial_budget := s.initial_budget, invested := invested2, returns := returns2,
    balance := balance2,
    daily_records := s.daily_records
      ++ [⟨date, invested, returns, returns - invested, race_count, balance2⟩] }

/-- The alert level returned by `check_alert`. -/
inductive Alert where
  /-- `ALERT_LEVEL_OK` -/
  | ok
  /-- `ALERT_LEVEL_WARNING` (balance ratio below 30%) -/
  | warning
  /-- `ALERT_LEVEL_CRITICAL` (balance ratio below 0%) -/
  | critical
deriving DecidableEq, Repr

/-- `balance / initial_budget` (float division modelled over `ℚ`). -/
def balanceRatio (s : TrackerData) : ℚ := (s.balance : ℚ) / (s.initial_budget : ℚ)

/-- `check_alert`: `critical` below `CRITICAL_THRESHOLD = 0.00`, `warning`
below `WARNING_THRESHOLD = 0.30`, otherwise `ok`; a zero initial budget is
always `ok`. -/
def check_alert (s : TrackerData) : Alert :=
  if s.initial_budget = 0 then .ok
  else if balanceRatio s < 0 then .critical
  else if balanceRatio s < 3/10 then .warning
  else .ok

/-- `get_investment_ratio`: 0.0 on critical, 0.5 on warning, 1.0 otherwise. -/
def get_investment_ratio (s : TrackerData) : ℚ :=
  match check_alert s with
  | .critical => 0
  | .warning => 1/2
  | .ok => 1

end WeeklyTrack

namespace ResultsSummary

/-! Embedding of `scripts/generate_results_summary.py`
(`check_hit` and the per-race part of `generate_summary`). -/

/-- One `軸` entry of a betting plan (`馬番` is all `check_hit` reads). -/
structure AxisHorse where
  /-- `馬番` -/
  umaban : Nat
deriving DecidableEq, Repr

/-- One element of `selected_predictions`. -/
structure PredictionEntry where
  /-- `race_id` -/
  race_id : String
  /-- `betting_plan.軸` -/
  axis : List AxisHorse
  /-- `investment` (`0` when missing) -/
  investment : Int
deriving DecidableEq, Repr

/-- The `着順` dict: horse numbers at keys `"1"`, `"2"`, `"3"`
(`0` when a key is missing, matching `.get(k, 0)`). -/
structure Rankings where
  /-- winner's `馬番` -/
  first : Nat
  /-- runner-up's `馬番` -/
  second : Nat
  /-- third horse's `馬番` -/
  third : Nat
deriving DecidableEq, Repr

/-- One element of the results file: `none` rankings model a missing or
empty `着順` (both falsy in the script's guard). -/
structure RaceResult where
  /-- `race_id` -/
  race_id : String
  /-- `着順` -/
  rankings : Option Rankings
  /-- `払戻.三連複` (`0` when missing) -/
  sanrenpuku : Nat
deriving DecidableEq, Repr

/-- The fields of `check_hit`'s result that later arithmetic reads
(`hit_type` and `reason` strings omitted). -/
structure HitResult where
  /-- `hit` -/
  hit : Bool
  /-- `payout` -/
  payout : Nat
deriving DecidableEq, Repr

/-- `check_hit`: 三連複 hit iff the sorted axis `馬番` list equals the
sorted actual top-3 list; degenerate inputs (no result, no rankings, fewer
than 3 axis horses) are misses with payout 0. -/
def check_hit (pred : PredictionEntry) (result : Option RaceResult) : HitResult :=
  match result with
  | none => ⟨false, 0⟩
  | some r =>
    match r.rankings with
    | none => ⟨false, 0⟩
    | some rk =>
      if pred.axis.length < 3 then ⟨false, 0⟩
      else
        let axisNums := pred.axis.map (·.umaban)
        if sortNat [rk.first, rk.second, rk.third] = sortNat axisNums then
          ⟨true, r.sanrenpuku⟩
        else ⟨false, 0⟩

/-- One element of `generate_summary`'s `details` list (the fields later
arithmetic reads). -/
structure SummaryItem where
  /-- `race_id` -/
  race_id : String
  /-- `investment` -/
  investment : Int
  /-- `hit` -/
  hit : Bool
  /-- `payout` -/
  payout : Nat
  /-- `profit = payout - investment` -/
  profit : Int
deriving DecidableEq, Repr

/-- The per-prediction step of `generate_summary`: look up the race's result
by `race_id` and attach `profit = payout - investment`. -/
def summaryItem (pred : PredictionEntry) (results : List RaceResult) : SummaryItem :=
  let result := results.find? (fun r => decide (r.race_id = pred.race_id))
  let h := check_hit pred result
  ⟨pred.race_id, pred.investment, h.hit, h.payout, (h.payout : Int) - pred.investment⟩

/-- The aggregate block of `generate_summary` (dates omitted). -/
structure Summary where
  /-- `total_races` -/
  total_races : Nat
  /-- `hit_count` -/
  hit_count : Nat
  /-- `total_investment` -/
  total_investment : Int
  /-- `total_payout` -/
  total_payout : Nat
  /-- `net_profit` -/
  net_profit : Int
  /-- `details` -/
  details : List SummaryItem
deriving DecidableEq, Repr

/-- `generate_summary` (hit/recovery percentage fields are derived and
omitted here). -/
def generate_summary (predictions : List PredictionEntry) (results : List RaceResult) :
    Summary :=
  let items := predictions.map (fun p => summaryItem p results)
  let totalInv := (predictions.map (·.investment)).sum
  let totalPay := (items.map (·.payout)).sum
  { total_races := predictions.length,
    hit_count := items.countP (·.hit),
    total_investment := totalInv,
    total_payout := totalPay,
    net_profit := (totalPay : Int) - totalInv,
    details := items }

end ResultsSummary

namespace FetchResults

/-! Embedding of `scripts/fetch_race_results.py` (the per-race result loop
and its summary totals). -/

/-- One selected race as read by the loop: axis `馬番` values from
`betting_plan.軸` and the race's `investment`. -/
structure SelRace where
  /-- `race_id` -/
  race_id : String
  /-- `馬番` of the axis horses, in plan order. -/
  axisNums : List Nat
  /-- `investment` (`2400` default applied by the caller). -/
  investment : Int
deriving DecidableEq, Repr

/-- What `fetch_single_race_result` returns on success (fields the
hit/total arithmetic reads). -/
structure FetchedResult where
  /-- `sanrenpuku_result`, e.g. `"2-8-9"`; `""` when no payout row parsed. -/
  sanrenpuku_result : String
  /-- `sanrenpuku_payout` -/
  sanrenpuku_payout : Nat
deriving DecidableEq, Repr

/-- `predicted_combinations`: the sorted first-3 axis numbers joined with
`-`, provided at least three axis horses exist. -/
def predictedCombos (race : SelRace) : List String :=
  if 3 ≤ race.axisNums.length then
    [String.intercalate "-" (sortStrs ((race.axisNums.take 3).map (fun n => toString n)))]
  else []

/-- The hit flag and `return_amount` computed from a fetched result
(Python compares `set(actual.split('-')) == set(combo.split('-'))`). -/
structure HitRes where
  /-- `hit` -/
  hit : Bool
  /-- `return_amount` -/
  ret : Nat
deriving DecidableEq, Repr

/-- The hit-determination block of the loop. -/
def hitCheck (race : SelRace) (res : FetchedResult) : HitRes :=
  let pc := predictedCombos race
  if res.sanrenpuku_result ≠ "" ∧ pc ≠ [] then
    if pc.any (fun combo =>
        (splitOnDash res.sanrenpuku_result).toFinset = (splitOnDash combo).toFinset) then
      ⟨true, res.sanrenpuku_payout⟩
    else ⟨false, 0⟩
  else ⟨false, 0⟩

/-- One element of `results` (fields the summary totals read). -/
structure RaceRecord where
  /-- `race_id` -/
  race_id : String
  /-- `status` (`的中` / `不的中` / `結果取得不可`) -/
  status : String
  /-- `hit` -/
  hit : Bool
  /-- `investment` -/
  investment : Int
  /-- `return` -/
  ret : Nat
  /-- `profit` -/
  profit : Int
deriving DecidableEq, Repr

/-- One iteration of the result loop: a failed fetch (`None`) is recorded
as a full loss (`hit=False`, `return=0`, `profit=-investment`) with status
`結果取得不可`; a fetched result goes through `hitCheck`. -/
def processRace (race : SelRace) (fetched : Option FetchedResult) : RaceRecord :=
  match fetched with
  | none =>
    ⟨race.race_id, "結果取得不可", false, race.investment, 0, -race.investment⟩
  | some res =>
    let h := hitCheck race res
    ⟨race.race_id, if h.hit then "的中" else "不的中", h.hit, race.investment,
      h.ret, (h.ret : Int) - race.investment⟩

/-- `total_investment = sum(r['investment'] for r in results)`. -/
def total_investment (l : List RaceRecord) : Int := (l.map (·.investment)).sum

/-- `total_return = sum(r['return'] for r in results)`. -/
def total_return (l : List RaceRecord) : Nat := (l.map (·.ret)).sum

/-- `recovery_rate = total_return / total_investment * 100` when any money
was staked, else `0`. -/
def recovery_rate (l : List RaceRecord) : ℚ :=
  if 0 < total_investment l then
    (total_return l : ℚ) / (total_investment l : ℚ) * 100
  else 0

end FetchResults

/-! ### Concrete fixtures used by counterexamples and witnesses -/

namespace DesScore

/-- A horse with an empty `past_races` list drawn in frame 1. -/
def emptyPastHorse : Horse :=
  { jockey := "武豊", trainer := "栗東・矢作", waku := 1, past_races := [] }

/-- A 1400 m dirt race. -/
def sampleRaceInfo : RaceInfo := { distance := 1400, track := "ダ" }

end DesScore

namespace SelectPred

/-- A ten-horse field with distinct DES totals. -/
def tenHorseRace : SRace :=
  { race_id := "202644110801",
    horses :=
      [⟨1, "ホースA", 80⟩, ⟨2, "ホースB", 76⟩, ⟨3, "ホースC", 72⟩,
       ⟨4, "ホースD", 68⟩, ⟨5, "ホースE", 64⟩, ⟨6, "ホースF", 60⟩,
       ⟨7, "ホースG", 56⟩, ⟨8, "ホースH", 52⟩, ⟨9, "ホースI", 48⟩,
       ⟨10, "ホースJ", 44⟩] }

/-- A three-horse field with totals 20/10/0: rank-1/rank-3 gap 20 but
top-3 average only 10. -/
def gapRace : SRace :=
  { race_id := "202644110802",
    horses := [⟨1, "ホースA", 20⟩, ⟨2, "ホースB", 10⟩, ⟨3, "ホースC", 0⟩] }

end SelectPred

namespace FinalOut

/-- A single completed low-volatility prediction. -/
def lonePred : Pred := ⟨"R701", "予想完了", "低", 80⟩

/-- A four-race day: one `低`, two `中`, one `高`, all completed. -/
def wpreds : List Pred :=
  [⟨"R702", "予想完了", "低", 82⟩, ⟨"R703", "予想完了", "中", 74⟩,
   ⟨"R704", "予想完了", "中", 70⟩, ⟨"R705", "予想完了", "高", 66⟩]

end FinalOut

namespace WeeklyTrack

/-- The ledger after `initialize_week(30000)` and four daily records of
`invested=9600, returns=0` (the scenario of claim C4). -/
def sampleWeek : TrackerData :=
  add_daily_record
    (add_daily_record
      (add_daily_record
        (add_daily_record (initWeek 30000) "2026-02-03" 9600 0 4)
        "2026-02-04" 9600 0 4)
      "2026-02-05" 9600 0 4)
    "2026-02-06" 9600 0 4

end WeeklyTrack

/-! ## Theorems -/

theorem DesScore.recentTrendPoints_le (past : List DesScore.PastRace) :
    DesScore.recentTrendPoints past ≤ 10 := by
  unfold DesScore.recentTrendPoints
  dsimp only
  repeat' split
  all_goals omega

theorem DesScore.recentTrendPoints_nonneg (past : List DesScore.PastRace) :
    0 ≤ DesScore.recentTrendPoints past := by
  unfold DesScore.recentTrendPoints
  dsimp only
  repeat' split
  all_goals omega

theorem DesScore.winPlaceRatePoints_le (past : List DesScore.PastRace) :
    DesScore.winPlaceRatePoints past ≤ 10 := by
  unfold DesScore.winPlaceRatePoints
  dsimp only
  repeat' split
  all_goals omega

theorem DesScore.past_performance_le (h : DesScore.Horse) (ri : DesScore.RaceInfo) :
    DesScore.calculate_past_performance_score h ri ≤ 40 := by
  unfold DesScore.calculate_past_performance_score
  split
  · omega
  · have h1 : min ((h.past_races.map (DesScore.samePastCondPoints ri)).sum) 20 ≤ 20 :=
      min_le_right _ _
    have h2 := DesScore.recentTrendPoints_le h.past_races
    have h3 := DesScore.winPlaceRatePoints_le h.past_races
    omega

theorem DesScore.pedigree_le (h : DesScore.Horse) (ri : DesScore.RaceInfo) :
    DesScore.calculate_pedigree_score h ri ≤ 30 := by
  unfold DesScore.calculate_pedigree_score
  dsimp only
  repeat' split
  all_goals omega

theorem DesScore.jockey_trainer_le (h : DesScore.Horse) (ri : DesScore.RaceInfo) :
    DesScore.calculate_jockey_trainer_score h ri ≤ 20 := by
  unfold DesScore.calculate_jockey_trainer_score
  dsimp only
  repeat' split
  all_goals omega

theorem DesScore.race_style_le (h : DesScore.Horse) (ri : DesScore.RaceInfo) :
    DesScore.calculate_race_style_score h ri ≤ 10 := by
  unfold DesScore.calculate_race_style_score
  dsimp only
  repeat' split
  all_goals omega

/-- C1: for every horse and race, the `total` of the computed `des_score`
equals the sum of the four sub-scores, and each sub-score is bounded by its
documented maximum (A ≤ 40, B ≤ 30, C ≤ 20, D ≤ 10). -/
theorem c1_des_total_eq_sum_and_caps (h : DesScore.Horse) (ri : DesScore.RaceInfo) :
    (DesScore.calculate_des_score h ri).total
        = (DesScore.calculate_des_score h ri).a + (DesScore.calculate_des_score h ri).b
          + (DesScore.calculate_des_score h ri).c + (DesScore.calculate_des_score h ri).d
      ∧ (DesScore.calculate_des_score h ri).a ≤ 40
      ∧ (DesScore.calculate_des_score h ri).b ≤ 30
      ∧ (DesScore.calculate_des_score h ri).c ≤ 20
      ∧ (DesScore.calculate_des_score h ri).d ≤ 10 := by
  refine ⟨rfl, ?_, ?_, ?_, ?_⟩
  · exact DesScore.past_performance_le h ri
  · exact DesScore.pedigree_le h ri
  · exact DesScore.jockey_trainer_le h ri
  · exact DesScore.race_style_le h ri

theorem DesScore.des_score_a_empty (h : DesScore.Horse) (ri : DesScore.RaceInfo)
    (hp : h.past_races = []) : DesScore.calculate_past_performance_score h ri = 0 := by
  simp [DesScore.calculate_past_performance_score, hp]

theorem DesScore.des_score_b_empty (h : DesScore.Horse) (ri : DesScore.RaceInfo)
    (hp : h.past_races = []) : DesScore.calculate_pedigree_score h ri = 0 := by
  simp [DesScore.calculate_pedigree_score, hp]

theorem DesScore.des_score_c_empty (h : DesScore.Horse) (ri : DesScore.RaceInfo)
    (hp : h.past_races = []) : DesScore.calculate_jockey_trainer_score h ri = 0 := by
  simp [DesScore.calculate_jockey_trainer_score, hp]

theorem DesScore.des_score_d_empty (h : DesScore.Horse) (ri : DesScore.RaceInfo)
    (hp : h.past_races = []) :
    DesScore.calculate_race_style_score h ri
      = (if h.waku ≠ 0 ∧ (h.waku ≤ 3 ∨ 6 ≤ h.waku) then 3 else 0) := by
  simp [DesScore.calculate_race_style_score, hp]

/-- C2 (amended): for a horse with an empty past-race list, the A, B and C
sub-scores are 0 and the confidence is `極低`; but the D sub-score is 3 (not
0) whenever the horse's draw number `枠番` is nonzero and ≤ 3 or ≥ 6, and 0
otherwise. -/
theorem c2_empty_past_scores (h : DesScore.Horse) (ri : DesScore.RaceInfo)
    (hp : h.past_races = []) :
    (DesScore.calculate_des_score h ri).a = 0
      ∧ (DesScore.calculate_des_score h ri).b = 0
      ∧ (DesScore.calculate_des_score h ri).c = 0
      ∧ (DesScore.calculate_des_score h ri).d
          = (if h.waku ≠ 0 ∧ (h.waku ≤ 3 ∨ 6 ≤ h.waku) then 3 else 0)
      ∧ (DesScore.calculate_des_score h ri).confidence = .veryLow := by
  have ha := DesScore.des_score_a_empty h ri hp
  have hb := DesScore.des_score_b_empty h ri hp
  have hc := DesScore.des_score_c_empty h ri hp
  have hd := DesScore.des_score_d_empty h ri hp
  refine ⟨?_, ?_, ?_, ?_, ?_⟩ <;>
    simp only [DesScore.calculate_des_score, ha, hb, hc, hd]
  split_ifs <;> first | rfl | omega

/-- C2 counterexample: a horse with no past races drawn in frame 1 gets a
nonzero D sub-score (`calculate_race_style_score` adds a +3 draw bonus that
does not depend on past races), refuting "each of the four sub-scores
returns 0 regardless of the horse's other fields". -/
theorem c2_counterexample :
    DesScore.emptyPastHorse.past_races = []
      ∧ (DesScore.calculate_des_score DesScore.emptyPastHorse DesScore.sampleRaceInfo).d ≠ 0 := by
  decide

/-- C2 witness: the amended statement evaluated at the frame-1 horse. -/
theorem c2_witness :
    (DesScore.calculate_des_score DesScore.emptyPastHorse DesScore.sampleRaceInfo).a = 0
      ∧ (DesScore.calculate_des_score DesScore.emptyPastHorse DesScore.sampleRaceInfo).b = 0
      ∧ (DesScore.calculate_des_score DesScore.emptyPastHorse DesScore.sampleRaceInfo).c = 0
      ∧ (DesScore.calculate_des_score DesScore.emptyPastHorse DesScore.sampleRaceInfo).d
          = (if DesScore.emptyPastHorse.waku ≠ 0
                ∧ (DesScore.emptyPastHorse.waku ≤ 3 ∨ 6 ≤ DesScore.emptyPastHorse.waku)
             then 3 else 0)
      ∧ (DesScore.calculate_des_score DesScore.emptyPastHorse
          DesScore.sampleRaceInfo).confidence = .veryLow :=
  c2_empty_past_scores DesScore.emptyPastHorse DesScore.sampleRaceInfo (by decide)

/-- C4: after a 30000-yen week and four 9600-yen losing days the balance is
negative, the alert is `critical` and the staking ratio is 0.0; in general,
for a positive initial budget, `check_alert` is `critical` exactly when the
balance ratio is negative (making `get_investment_ratio` 0.0) and `warning`
exactly when the ratio is in `[0, 0.30)` (making it 0.5). -/
theorem c4_weekly_ledger :
    (WeeklyTrack.sampleWeek.balance = -8400
      ∧ WeeklyTrack.sampleWeek.balance < 0
      ∧ WeeklyTrack.check_alert WeeklyTrack.sampleWeek = .critical
      ∧ WeeklyTrack.get_investment_ratio WeeklyTrack.sampleWeek = 0)
    ∧ ∀ s : WeeklyTrack.TrackerData, 0 < s.initial_budget →
        (WeeklyTrack.check_alert s = .critical ↔ WeeklyTrack.balanceRatio s < 0)
        ∧ (WeeklyTrack.check_alert s = .warning
            ↔ 0 ≤ WeeklyTrack.balanceRatio s ∧ WeeklyTrack.balanceRatio s < 3/10)
        ∧ (WeeklyTrack.check_alert s = .critical → WeeklyTrack.get_investment_ratio s = 0)
        ∧ (WeeklyTrack.check_alert s = .warning → WeeklyTrack.get_investment_ratio s = 1/2) := by
  have hgen : ∀ s : WeeklyTrack.TrackerData, 0 < s.initial_budget →
      (WeeklyTrack.check_alert s = .critical ↔ WeeklyTrack.balanceRatio s < 0)
      ∧ (WeeklyTrack.check_alert s = .warning
          ↔ 0 ≤ WeeklyTrack.balanceRatio s ∧ WeeklyTrack.balanceRatio s < 3/10)
      ∧ (WeeklyTrack.check_alert s = .critical → WeeklyTrack.get_investment_ratio s = 0)
      ∧ (WeeklyTrack.check_alert s = .warning → WeeklyTrack.get_investment_ratio s = 1/2) := by
    intro s hs
    have hne : s.initial_budget ≠ 0 := by omega
    refine ⟨?_, ?_, ?_, ?_⟩
    · unfold WeeklyTrack.check_alert
      rw [if_neg hne]
      split_ifs with h1 h2
      · exact iff_of_true rfl h1
      · exact iff_of_false (by decide) h1
      · exact iff_of_false (by decide) h1
    · unfold WeeklyTrack.check_alert
      rw [if_neg hne]
      split_ifs with h1 h2
      · exact iff_of_false (by decide) (fun hcon => absurd h1 (not_lt.mpr hcon.1))
      · exact iff_of_true rfl ⟨not_lt.mp h1, h2⟩
      · exact iff_of_false (by decide) (fun hcon => h2 hcon.2)
    · intro h
      unfold WeeklyTrack.get_investment_ratio
      rw [h]
    · intro h
      unfold WeeklyTrack.get_investment_ratio
      rw [h]
  have hbal : WeeklyTrack.sampleWeek.balance = -8400 := by decide
  have hib : WeeklyTrack.sampleWeek.initial_budget = 30000 := by decide
  have hratio : WeeklyTrack.balanceRatio WeeklyTrack.sampleWeek < 0 := by
    unfold WeeklyTrack.balanceRatio
    rw [hbal, hib]
    norm_num
  have hcrit : WeeklyTrack.check_alert WeeklyTrack.sampleWeek = .critical :=
    ((hgen WeeklyTrack.sampleWeek (by rw [hib]; norm_num)).1).mpr hratio
  refine ⟨⟨hbal, by rw [hbal]; norm_num, hcrit, ?_⟩, hgen⟩
  exact (hgen WeeklyTrack.sampleWeek (by rw [hib]; norm_num)).2.2.1 hcrit

/-- C4 witness: the general alert characterization applied to the concrete
four-loss week (whose initial budget 30000 is positive). -/
theorem c4_witness :
    (WeeklyTrack.check_alert WeeklyTrack.sampleWeek = .critical
        ↔ WeeklyTrack.balanceRatio WeeklyTrack.sampleWeek < 0)
      ∧ (WeeklyTrack.check_alert WeeklyTrack.sampleWeek = .warning
          ↔ 0 ≤ WeeklyTrack.balanceRatio WeeklyTrack.sampleWeek
            ∧ WeeklyTrack.balanceRatio WeeklyTrack.sampleWeek < 3/10)
      ∧ (WeeklyTrack.check_alert WeeklyTrack.sampleWeek = .critical
          → WeeklyTrack.get_investment_ratio WeeklyTrack.sampleWeek = 0)
      ∧ (WeeklyTrack.check_alert WeeklyTrack.sampleWeek = .warning
          → WeeklyTrack.get_investment_ratio WeeklyTrack.sampleWeek = 1/2) :=
  c4_weekly_ledger.2 WeeklyTrack.sampleWeek (by decide)

/-- C9: for every race whose horses carry at least one running-style label,
the pace classifier returns `ハイペース` iff front-runners ≥ 3 or
(front-runners + pressers)/total ≥ 1/2; otherwise it returns `スローペース`
iff front-runners ≤ 1, and `ミドルペース` in all remaining cases. -/
theorem c9_pace_classifier (horses : List PaceInfo.PHorse)
    (hne : PaceInfo.runstylesOf horses ≠ []) :
    (PaceInfo.analyze_pace_from_horses horses = "ハイペース"
        ↔ 3 ≤ PaceInfo.nigeCount horses
          ∨ (1 : ℚ)/2 ≤ ((PaceInfo.nigeCount horses : ℚ) + PaceInfo.senkouCount horses)
              / (PaceInfo.runstylesOf horses).length)
      ∧ (PaceInfo.analyze_pace_from_horses horses ≠ "ハイペース"
          → (PaceInfo.analyze_pace_from_horses horses = "スローペース"
              ↔ PaceInfo.nigeCount horses ≤ 1))
      ∧ (PaceInfo.analyze_pace_from_horses horses ≠ "ハイペース"
          → PaceInfo.analyze_pace_from_horses horses ≠ "スローペース"
          → PaceInfo.analyze_pace_from_horses horses = "ミドルペース") := by
  have hemp : (PaceInfo.runstylesOf horses).isEmpty = false := by
    cases hl : PaceInfo.runstylesOf horses with
    | nil => exact absurd hl hne
    | cons a l => rfl
  unfold PaceInfo.analyze_pace_from_horses
  dsimp only
  simp only [hemp, Bool.false_eq_true, if_false]
  split_ifs with hf hs
  · refine ⟨iff_of_true rfl hf, ?_, ?_⟩
    · intro hneq; exact absurd rfl hneq
    · intro hneq _; exact absurd rfl hneq
  · refine ⟨iff_of_false (by decide) hf, ?_, ?_⟩
    · intro _; exact iff_of_true rfl hs
    · intro _ hneq; exact absurd rfl hneq
  · refine ⟨iff_of_false (by decide) hf, ?_, ?_⟩
    · intro _; exact iff_of_false (by decide) hs
    · intro _ _; rfl

/-- C9 witness: the characterization applied to a field of one front-runner
and one closer. -/
theorem c9_witness :
    (PaceInfo.analyze_pace_from_horses [⟨some "逃げ"⟩, ⟨some "差し"⟩] = "ハイペース"
        ↔ 3 ≤ PaceInfo.nigeCount [⟨some "逃げ"⟩, ⟨some "差し"⟩]
          ∨ (1 : ℚ)/2 ≤ ((PaceInfo.nigeCount [⟨some "逃げ"⟩, ⟨some "差し"⟩] : ℚ)
                + PaceInfo.senkouCount [⟨some "逃げ"⟩, ⟨some "差し"⟩])
              / (PaceInfo.runstylesOf [⟨some "逃げ"⟩, ⟨some "差し"⟩]).length)
      ∧ (PaceInfo.analyze_pace_from_horses [⟨some "逃げ"⟩, ⟨some "差し"⟩] ≠ "ハイペース"
          → (PaceInfo.analyze_pace_from_horses [⟨some "逃げ"⟩, ⟨some "差し"⟩] = "スローペース"
              ↔ PaceInfo.nigeCount [⟨some "逃げ"⟩, ⟨some "差し"⟩] ≤ 1))
      ∧ (PaceInfo.analyze_pace_from_horses [⟨some "逃げ"⟩, ⟨some "差し"⟩] ≠ "ハイペース"
          → PaceInfo.analyze_pace_from_horses [⟨some "逃げ"⟩, ⟨some "差し"⟩] ≠ "スローペース"
          → PaceInfo.analyze_pace_from_horses [⟨some "逃げ"⟩, ⟨some "差し"⟩] = "ミドルペース") :=
  c9_pace_classifier [⟨some "逃げ"⟩, ⟨some "差し"⟩] (by decide)

theorem sortNat_congr_perm {a b : List Nat} (h : a.Perm b) : sortNat a = sortNat b := by
  haveI hA : IsAntisymm Nat (· ≤ ·) := ⟨fun x y hx hy => Nat.le_antisymm hx hy⟩
  haveI hT : IsTotal Nat (· ≤ ·) := ⟨fun x y => Nat.le_total x y⟩
  haveI hR : IsTrans Nat (· ≤ ·) := ⟨fun x y z hx hy => Nat.le_trans hx hy⟩
  unfold sortNat
  refine List.eq_of_perm_of_sorted (r := (· ≤ ·)) ?_ ?_ ?_
  · exact (List.perm_insertionSort _ a).trans (h.trans (List.perm_insertionSort _ b).symm)
  · exact List.sorted_insertionSort _ a
  · exact List.sorted_insertionSort _ b

/-- C3: against an official result whose top three finishers are the set
{2,8,9} (here in finishing order 9-2-8), a plan whose axis horses are
{2,8,9} is a hit whose summary profit is `payout − stake`, and a plan with
axis {1,2,3} is a miss with payout 0 and profit `−stake`; moreover the hit
test depends on the axis list only up to permutation (set equality). -/
theorem c3_reconcile_hit_and_miss (P : Nat) (stake : Int) :
    ResultsSummary.check_hit ⟨"R1", [⟨2⟩, ⟨8⟩, ⟨9⟩], stake⟩
        (some ⟨"R1", some ⟨9, 2, 8⟩, P⟩) = ⟨true, P⟩
      ∧ (ResultsSummary.summaryItem ⟨"R1", [⟨2⟩, ⟨8⟩, ⟨9⟩], stake⟩
          [⟨"R1", some ⟨9, 2, 8⟩, P⟩]).hit = true
      ∧ (ResultsSummary.summaryItem ⟨"R1", [⟨2⟩, ⟨8⟩, ⟨9⟩], stake⟩
          [⟨"R1", some ⟨9, 2, 8⟩, P⟩]).profit = (P : Int) - stake
      ∧ ResultsSummary.check_hit ⟨"R1", [⟨1⟩, ⟨2⟩, ⟨3⟩], stake⟩
          (some ⟨"R1", some ⟨9, 2, 8⟩, P⟩) = ⟨false, 0⟩
      ∧ (ResultsSummary.summaryItem ⟨"R1", [⟨1⟩, ⟨2⟩, ⟨3⟩], stake⟩
          [⟨"R1", some ⟨9, 2, 8⟩, P⟩]).payout = 0
      ∧ (ResultsSummary.summaryItem ⟨"R1", [⟨1⟩, ⟨2⟩, ⟨3⟩], stake⟩
          [⟨"R1", some ⟨9, 2, 8⟩, P⟩]).profit = 0 - stake
      ∧ ∀ (axis1 axis2 : List ResultsSummary.AxisHorse)
          (result : Option ResultsSummary.RaceResult) (rid : String) (inv : Int),
          axis1.Perm axis2 →
            ResultsSummary.check_hit ⟨rid, axis1, inv⟩ result
              = ResultsSummary.check_hit ⟨rid, axis2, inv⟩ result := by
  have hsHit : sortNat [9, 2, 8] = sortNat [2, 8, 9] := by decide
  have hsMiss : sortNat [9, 2, 8] ≠ sortNat [1, 2, 3] := by decide
  refine ⟨?_, ?_, ?_, ?_, ?_, ?_, ?_⟩
  · simp [ResultsSummary.check_hit, hsHit]
  · simp [ResultsSummary.summaryItem, ResultsSummary.check_hit, hsHit, List.find?]
  · simp [ResultsSummary.summaryItem, ResultsSummary.check_hit, hsHit, List.find?]
  · simp [ResultsSummary.check_hit, hsMiss]
  · simp [ResultsSummary.summaryItem, ResultsSummary.check_hit, hsMiss, List.find?]
  · simp [ResultsSummary.summaryItem, ResultsSummary.check_hit, hsMiss, List.find?]
  · intro axis1 axis2 result rid inv hperm
    have hlen : axis1.length = axis2.length := hperm.length_eq
    have hsort : sortNat (axis1.map (·.umaban)) = sortNat (axis2.map (·.umaban)) :=
      sortNat_congr_perm (hperm.map _)
    cases result with
    | none => rfl
    | some r =>
      obtain ⟨rid2, rk, pay⟩ := r
      cases rk with
      | none => rfl
      | some rk => simp only [ResultsSummary.check_hit, hlen, hsort]

/-- C3 witness: permutation invariance of `check_hit` applied to the axis
lists [2,8,9] and [9,8,2] (a concrete permutation). -/
theorem c3_witness :
    ResultsSummary.check_hit ⟨"R1", [⟨2⟩, ⟨8⟩, ⟨9⟩], 1200⟩
        (some ⟨"R1", some ⟨9, 2, 8⟩, 45000⟩)
      = ResultsSummary.check_hit ⟨"R1", [⟨9⟩, ⟨8⟩, ⟨2⟩], 1200⟩
        (some ⟨"R1", some ⟨9, 2, 8⟩, 45000⟩) :=
  (c3_reconcile_hit_and_miss 45000 1200).2.2.2.2.2.2
    [⟨2⟩, ⟨8⟩, ⟨9⟩] [⟨9⟩, ⟨8⟩, ⟨2⟩]
    (some ⟨"R1", some ⟨9, 2, 8⟩, 45000⟩) "R1" 1200 (by decide)

/-- C5 (amended): the number of opponent horses in a generated betting plan
is `min(field_size, 10) − 3` clamped to 0 (the plan takes ranks 4–10), not
`⌊field_size/2⌋ + 1 − 3`; it is never negative. -/
theorem c5_opponent_count (race : SelectPred.SRace) :
    (SelectPred.generate_betting_plan race).opponents.length
        = min race.horses.length 10 - 3
      ∧ ((SelectPred.generate_betting_plan race).opponents.length : Int)
        = max 0 (min (race.horses.length : Int) 10 - 3) := by
  have hn : (SelectPred.generate_betting_plan race).opponents.length
      = min race.horses.length 10 - 3 := by
    unfold SelectPred.generate_betting_plan
    dsimp only
    rw [List.length_map, List.length_drop, List.length_take]
    unfold SelectPred.sortedByScoreDesc
    rw [List.length_insertionSort]
    omega
  refine ⟨hn, ?_⟩
  rw [hn]
  omega

/-- C5 counterexample: on a 10-horse field the plan has 7 opponents
(ranks 4–10), while `⌊10/2⌋ + 1 − 3 = 3`. -/
theorem c5_counterexample :
    SelectPred.tenHorseRace.horses.length = 10
      ∧ (SelectPred.generate_betting_plan SelectPred.tenHorseRace).opponents.length = 7
      ∧ (7 : Nat) ≠ 10 / 2 + 1 - 3 := by
  decide

/-- C6 (amended): with at least three scored horses, the volatility label is
`低` exactly when the top-3 average is ≥ 70 AND the rank-1/rank-3 gap is
≥ 15; in particular the label is never `低` when the gap is ≤ 10.  A large
gap alone does not force `低`. -/
theorem c6_volatility (race : SelectPred.SRace) (h3 : 3 ≤ race.horses.length) :
    (SelectPred.calculate_turbulence race = .low
        ↔ 70 ≤ SelectPred.topThreeAvg race ∧ 15 ≤ SelectPred.scoreGap race)
      ∧ (SelectPred.scoreGap race ≤ 10 → SelectPred.calculate_turbulence race ≠ .low) := by
  have hne : race.horses.isEmpty = false := by
    cases hl : race.horses with
    | nil => rw [hl] at h3; simp at h3
    | cons a l => rfl
  have hne2 : (SelectPred.scoresOf race).isEmpty = false := by
    unfold SelectPred.scoresOf
    cases hl : race.horses with
    | nil => rw [hl] at h3; simp at h3
    | cons a l => rfl
  unfold SelectPred.calculate_turbulence
  rw [hne, hne2]
  simp only [Bool.false_eq_true, if_false]
  split_ifs with hlow hmid
  · refine ⟨iff_of_true rfl hlow, fun hgap _ => ?_⟩
    have := hlow.2
    linarith
  · exact ⟨iff_of_false (by decide) hlow, fun _ => by decide⟩
  · exact ⟨iff_of_false (by decide) hlow, fun _ => by decide⟩

/-- C6 counterexample: a race with totals 20/10/0 has a rank-1/rank-3 gap of
20 (≥ 15) but its volatility label is `中`, not `低` (the top-3 average is
only 10 < 70), refuting "the label is low whenever the gap reaches the
threshold". -/
theorem c6_counterexample :
    (15 : ℚ) ≤ SelectPred.scoreGap SelectPred.gapRace
      ∧ SelectPred.calculate_turbulence SelectPred.gapRace = .mid
      ∧ SelectPred.calculate_turbulence SelectPred.gapRace ≠ .low := by
  have hscores : SelectPred.sortedScores SelectPred.gapRace = [20, 10, 0] := by
    norm_num [SelectPred.sortedScores, SelectPred.scoresOf, SelectPred.gapRace,
      sortQdesc, List.insertionSort, List.orderedInsert]
  have hgap : SelectPred.scoreGap SelectPred.gapRace = 20 := by
    rw [SelectPred.scoreGap, hscores]
    norm_num
  have havg : SelectPred.topThreeAvg SelectPred.gapRace = 10 := by
    rw [SelectPred.topThreeAvg, hscores]
    norm_num
  have hmid : SelectPred.calculate_turbulence SelectPred.gapRace = .mid := by
    unfold SelectPred.calculate_turbulence
    rw [hgap, havg]
    norm_num [SelectPred.gapRace]
  exact ⟨by rw [hgap]; norm_num, hmid, by rw [hmid]; decide⟩

/-- C6 witness: the characterization applied to the 20/10/0 race (which has
three horses). -/
theorem c6_witness :
    (SelectPred.calculate_turbulence SelectPred.gapRace = .low
        ↔ 70 ≤ SelectPred.topThreeAvg SelectPred.gapRace
          ∧ 15 ≤ SelectPred.scoreGap SelectPred.gapRace)
      ∧ (SelectPred.scoreGap SelectPred.gapRace ≤ 10
          → SelectPred.calculate_turbulence SelectPred.gapRace ≠ .low) :=
  c6_volatility SelectPred.gapRace (by decide)

theorem FetchResults.hitCheck_miss_ret (race : FetchResults.SelRace)
    (res : FetchResults.FetchedResult)
    (h : (FetchResults.hitCheck race res).hit = false) :
    (FetchResults.hitCheck race res).ret = 0 := by
  unfold FetchResults.hitCheck at *
  dsimp only at h ⊢
  split_ifs at h ⊢ <;> rfl

/-- C10: a race whose result fetch fails is recorded as a full loss
(`hit=false`, `return=0`, `profit=−investment`, status `結果取得不可`), its
stake is added to `total_investment`, and the day's totals and recovery rate
are exactly what a fetched miss with the same stake would produce. -/
theorem c10_unavailable_race_is_full_loss :
    (∀ race : FetchResults.SelRace,
      (FetchResults.processRace race none).hit = false
        ∧ (FetchResults.processRace race none).ret = 0
        ∧ (FetchResults.processRace race none).profit = -race.investment
        ∧ (FetchResults.processRace race none).status = "結果取得不可")
    ∧ (∀ (l : List FetchResults.RaceRecord) (race : FetchResults.SelRace),
        FetchResults.total_investment (l ++ [FetchResults.processRace race none])
            = FetchResults.total_investment l + race.investment
          ∧ FetchResults.total_return (l ++ [FetchResults.processRace race none])
            = FetchResults.total_return l)
    ∧ (∀ (pre post : List FetchResults.RaceRecord) (race : FetchResults.SelRace)
        (res : FetchResults.FetchedResult),
        (FetchResults.hitCheck race res).hit = false →
          FetchResults.total_investment
              (pre ++ FetchResults.processRace race none :: post)
            = FetchResults.total_investment
              (pre ++ FetchResults.processRace race (some res) :: post)
          ∧ FetchResults.total_return
              (pre ++ FetchResults.processRace race none :: post)
            = FetchResults.total_return
              (pre ++ FetchResults.processRace race (some res) :: post)
          ∧ FetchResults.recovery_rate
              (pre ++ FetchResults.processRace race none :: post)
            = FetchResults.recovery_rate
              (pre ++ FetchResults.processRace race (some res) :: post)) := by
  refine ⟨fun race => ⟨rfl, rfl, rfl, rfl⟩, ?_, ?_⟩
  · intro l race
    constructor
    · simp [FetchResults.total_investment, FetchResults.processRace]
    · simp [FetchResults.total_return, FetchResults.processRace]
  · intro pre post race res hmiss
    have hret := FetchResults.hitCheck_miss_ret race res hmiss
    have hinv : (FetchResults.processRace race (some res)).investment = race.investment := rfl
    have hret2 : (FetchResults.processRace race (some res)).ret = 0 := by
      show (FetchResults.hitCheck race res).ret = 0
      exact hret
    have h1 : FetchResults.total_investment
        (pre ++ FetchResults.processRace race none :: post)
        = FetchResults.total_investment
          (pre ++ FetchResults.processRace race (some res) :: post) := by
      simp [FetchResults.total_investment, hinv, FetchResults.processRace]
    have h2 : FetchResults.total_return
        (pre ++ FetchResults.processRace race none :: post)
        = FetchResults.total_return
          (pre ++ FetchResults.processRace race (some res) :: post) := by
      simp [FetchResults.total_return, hret2, FetchResults.processRace, hret]
    refine ⟨h1, h2, ?_⟩
    unfold FetchResults.recovery_rate
    rw [h1, h2]

/-- C10 witness: a race with axis {1,2,3} and stake 2400 whose result would
have been 2-8-9 is a miss, so dropping the fetch changes nothing in the
totals. -/
theorem c10_witness :
    FetchResults.total_investment
        ([] ++ FetchResults.processRace ⟨"R10", [1, 2, 3], 2400⟩ none :: [])
      = FetchResults.total_investment
        ([] ++ FetchResults.processRace ⟨"R10", [1, 2, 3], 2400⟩
          (some ⟨"2-8-9", 45000⟩) :: [])
      ∧ FetchResults.total_return
        ([] ++ FetchResults.processRace ⟨"R10", [1, 2, 3], 2400⟩ none :: [])
      = FetchResults.total_return
        ([] ++ FetchResults.processRace ⟨"R10", [1, 2, 3], 2400⟩
          (some ⟨"2-8-9", 45000⟩) :: [])
      ∧ FetchResults.recovery_rate
        ([] ++ FetchResults.processRace ⟨"R10", [1, 2, 3], 2400⟩ none :: [])
      = FetchResults.recovery_rate
        ([] ++ FetchResults.processRace ⟨"R10", [1, 2, 3], 2400⟩
          (some ⟨"2-8-9", 45000⟩) :: []) :=
  c10_unavailable_race_is_full_loss.2.2 [] [] ⟨"R10", [1, 2, 3], 2400⟩
    ⟨"2-8-9", 45000⟩ (by decide)

theorem DesV2.styleVotesAux_eq (l : List DesV2.PastRun) (f m c : Nat) :
    DesV2.styleVotesAux l f m c
      = (f + DesV2.frontVotesL l, m + DesV2.midVotesL l, c + DesV2.closerVotesL l) := by
  induction l generalizing f m c with
  | nil => simp [DesV2.styleVotesAux, DesV2.frontVotesL, DesV2.midVotesL, DesV2.closerVotesL]
  | cons r rest ih =>
    unfold DesV2.styleVotesAux
    cases hcn : firstCornerNum r.corner with
    | none =>
      dsimp only
      rw [ih]
      simp [DesV2.frontVotesL, DesV2.midVotesL, DesV2.closerVotesL, List.countP_cons, hcn]
    | some pos =>
      dsimp only
      have hf : DesV2.frontVotesL (r :: rest)
          = DesV2.frontVotesL rest + (if pos ≤ 2 then 1 else 0) := by
        simp only [DesV2.frontVotesL, List.countP_cons, hcn, decide_eq_true_eq]
      have hm : DesV2.midVotesL (r :: rest)
          = DesV2.midVotesL rest + (if 2 < pos ∧ pos ≤ 5 then 1 else 0) := by
        simp only [DesV2.midVotesL, List.countP_cons, hcn, decide_eq_true_eq]
      have hc : DesV2.closerVotesL (r :: rest)
          = DesV2.closerVotesL rest + (if 5 < pos then 1 else 0) := by
        simp only [DesV2.closerVotesL, List.countP_cons, hcn, decide_eq_true_eq]
      by_cases h2 : pos ≤ 2
      · rw [if_pos h2, ih, hf, hm, hc]
        simp only [Prod.mk.injEq]
        refine ⟨by split_ifs <;> omega, by split_ifs <;> omega, by split_ifs <;> omega⟩
      · by_cases h5 : pos ≤ 5
        · rw [if_neg h2, if_pos h5, ih, hf, hm, hc]
          simp only [Prod.mk.injEq]
          refine ⟨by split_ifs <;> omega, by split_ifs <;> omega, by split_ifs <;> omega⟩
        · rw [if_neg h2, if_neg h5, ih, hf, hm, hc]
          simp only [Prod.mk.injEq]
          refine ⟨by split_ifs <;> omega, by split_ifs <;> omega, by split_ifs <;> omega⟩

/-- C8 (amended): the running-style classifier takes the most recent 5 past
races, parses each first corner-passage number, and casts one unweighted
vote per parsable race into three buckets — ≤2 (front-runner `逃げ`), 3–5
(presser `先行`), >5 (closer `差し`) — returning the label with the most
votes with ties broken in that fixed priority order; an empty or unparsable
corner string contributes no vote, and a horse with no past races or no
votes at all is labelled `不明` (unknown). -/
theorem c8_running_style_characterization (past : List DesV2.PastRun) :
    DesV2.estimate_running_style past = DesV2.running_style_claimed past
      ∧ DesV2.estimate_running_style [] = "不明" := by
  constructor
  · unfold DesV2.estimate_running_style DesV2.running_style_claimed
    rw [DesV2.styleVotesAux_eq]
    simp only [Nat.zero_add]
    rfl
  · rfl

/-- C8 counterexample: a lone past race with corner string "3-3-3-3" (first
corner 3) is classified `先行` (presser), while the claimed ≤3 bucket would
make it a front-runner vote and hence label the horse `逃げ`; also no vote
weighting by finishing position exists. -/
theorem c8_counterexample :
    firstCornerNum "3-3-3-3" = some 3
      ∧ DesV2.estimate_running_style [⟨"3-3-3-3"⟩] = "先行"
      ∧ DesV2.estimate_running_style [⟨"3-3-3-3"⟩] ≠ "逃げ" := by
  decide

theorem FinalOut.pickLowMid_length (l : List FinalOut.Pred) :
    ∀ sel : List FinalOut.Pred, sel.length ≤ 5 →
      (FinalOut.pickLowMid l sel).length
        = min (sel.length + FinalOut.countLowMid l) 5 := by
  induction l with
  | nil =>
    intro sel h
    simp only [FinalOut.pickLowMid, FinalOut.countLowMid, List.countP_nil, Nat.add_zero]
    omega
  | cons p rest ih =>
    intro sel h
    unfold FinalOut.pickLowMid
    by_cases hLM : p.turbulence = "低" ∨ p.turbulence = "中"
    · by_cases hlen : sel.length < 5
      · rw [if_pos ⟨hLM, hlen⟩,
          ih _ (by simp only [List.length_append, List.length_singleton]; omega)]
        simp only [FinalOut.countLowMid, List.countP_cons, decide_eq_true_eq, if_pos hLM,
          List.length_append, List.length_singleton]
        omega
      · rw [if_neg (fun hcon => hlen hcon.2), ih _ h]
        simp only [FinalOut.countLowMid, List.countP_cons, decide_eq_true_eq, if_pos hLM]
        omega
    · rw [if_neg (fun hcon => hLM hcon.1), ih _ h]
      simp only [FinalOut.countLowMid, List.countP_cons, decide_eq_true_eq, if_neg hLM]
      omega

theorem FinalOut.pickLowMid_mem (l : List FinalOut.Pred) :
    ∀ sel q, q ∈ FinalOut.pickLowMid l sel → q ∈ sel ∨ q ∈ l := by
  induction l with
  | nil =>
    intro sel q hq
    exact Or.inl (by simpa [FinalOut.pickLowMid] using hq)
  | cons p rest ih =>
    intro sel q hq
    unfold FinalOut.pickLowMid at hq
    split_ifs at hq with hcond
    · rcases ih _ _ hq with hin | hin
      · rcases List.mem_append.mp hin with hl | hr
        · exact Or.inl hl
        · simp only [List.mem_singleton] at hr
          subst hr
          exact Or.inr (List.mem_cons_self _ _)
      · exact Or.inr (List.mem_cons_of_mem _ hin)
    · rcases ih _ _ hq with hin | hin
      · exact Or.inl hin
      · exact Or.inr (List.mem_cons_of_mem _ hin)

theorem FinalOut.pickLowMid_lowmid (l : List FinalOut.Pred) :
    ∀ sel, (∀ q ∈ sel, q.turbulence = "低" ∨ q.turbulence = "中") →
      ∀ q ∈ FinalOut.pickLowMid l sel, q.turbulence = "低" ∨ q.turbulence = "中" := by
  induction l with
  | nil =>
    intro sel hsel q hq
    exact hsel q (by simpa [FinalOut.pickLowMid] using hq)
  | cons p rest ih =>
    intro sel hsel q hq
    unfold FinalOut.pickLowMid at hq
    split_ifs at hq with hcond
    · refine ih _ ?_ q hq
      intro x hx
      rcases List.mem_append.mp hx with hl | hr
      · exact hsel x hl
      · simp only [List.mem_singleton] at hr
        subst hr
        exact hcond.1
    · exact ih _ hsel q hq

theorem FinalOut.addHighs_length (l : List FinalOut.Pred) :
    ∀ sel, l.Nodup → (∀ p ∈ l, p.turbulence = "高" → p ∉ sel) → sel.length < 3 →
      (FinalOut.addHighs l sel).length = min (sel.length + FinalOut.countHigh l) 3 := by
  induction l with
  | nil =>
    intro sel _ _ h3
    simp only [FinalOut.addHighs, FinalOut.countHigh, List.countP_nil, Nat.add_zero]
    omega
  | cons p rest ih =>
    intro sel hnd hdis h3
    unfold FinalOut.addHighs
    by_cases hH : p.turbulence = "高"
    · have hnotin : p ∉ sel := hdis p (List.mem_cons_self _ _) hH
      have hlen5 : sel.length < 5 := by omega
      rw [if_pos ⟨hH, hnotin, hlen5⟩]
      dsimp only
      by_cases hge : 3 ≤ (sel ++ [p]).length
      · rw [if_pos hge]
        simp only [List.length_append, List.length_singleton] at hge ⊢
        simp only [FinalOut.countHigh, List.countP_cons, decide_eq_true_eq, if_pos hH]
        omega
      · rw [if_neg hge]
        have h3' : (sel ++ [p]).length < 3 := Nat.lt_of_not_le hge
        have hnd' := (List.nodup_cons.mp hnd).2
        have hpnotin := (List.nodup_cons.mp hnd).1
        have hdis' : ∀ q ∈ rest, q.turbulence = "高" → q ∉ sel ++ [p] := by
          intro q hq hqH hmem
          rcases List.mem_append.mp hmem with hin | hin
          · exact hdis q (List.mem_cons_of_mem _ hq) hqH hin
          · simp only [List.mem_singleton] at hin
            subst hin
            exact hpnotin hq
        rw [ih _ hnd' hdis' h3']
        simp only [List.length_append, List.length_singleton, FinalOut.countHigh,
          List.countP_cons, decide_eq_true_eq, if_pos hH]
        omega
    · rw [if_neg (fun hcon => hH hcon.1)]
      rw [ih _ (List.nodup_cons.mp hnd).2
          (fun q hq hqH => hdis q (List.mem_cons_of_mem _ hq) hqH) h3]
      simp only [FinalOut.countHigh, List.countP_cons, decide_eq_true_eq, if_neg hH]
      omega

theorem FinalOut.addHighs_mem (l : List FinalOut.Pred) :
    ∀ sel q, q ∈ FinalOut.addHighs l sel → q ∈ sel ∨ q ∈ l := by
  induction l with
  | nil =>
    intro sel q hq
    exact Or.inl (by simpa [FinalOut.addHighs] using hq)
  | cons p rest ih =>
    intro sel q hq
    unfold FinalOut.addHighs at hq
    dsimp only at hq
    split_ifs at hq with hcond hge
    · rcases List.mem_append.mp hq with hl | hr
      · exact Or.inl hl
      · simp only [List.mem_singleton] at hr
        subst hr
        exact Or.inr (List.mem_cons_self _ _)
    · rcases ih _ _ hq with hin | hin
      · rcases List.mem_append.mp hin with hl | hr
        · exact Or.inl hl
        · simp only [List.mem_singleton] at hr
          subst hr
          exact Or.inr (List.mem_cons_self _ _)
      · exact Or.inr (List.mem_cons_of_mem _ hin)
    · rcases ih _ _ hq with hin | hin
      · exact Or.inl hin
      · exact Or.inr (List.mem_cons_of_mem _ hin)

/-- C7 (amended): `select_races` returns at most 5 races drawn from the
input.  When at least 3 low/medium-volatility races exist, it returns
exactly `min(count_lowmid, 5)` races, all of them low/medium; when fewer
than 3 exist it falls back to high-volatility races and returns
`min(count_lowmid + count_high, 3)` races.  A high-volatility race is
selected only when fewer than 3 low/medium races qualify — but the size can
fall below 3 on a thin day, so "3 to 5 races" does not always hold. -/
theorem c7_race_selector (preds : List FinalOut.Pred) (hnd : preds.Nodup) :
    (FinalOut.select_races preds).length ≤ 5
      ∧ (∀ q ∈ FinalOut.select_races preds, q ∈ preds)
      ∧ (3 ≤ FinalOut.countLowMid preds →
          (FinalOut.select_races preds).length = min (FinalOut.countLowMid preds) 5
            ∧ ∀ q ∈ FinalOut.select_races preds,
                q.turbulence = "低" ∨ q.turbulence = "中")
      ∧ (FinalOut.countLowMid preds < 3 →
          (FinalOut.select_races preds).length
            = min (FinalOut.countLowMid preds + FinalOut.countHigh preds) 3)
      ∧ (∀ q ∈ FinalOut.select_races preds, q.turbulence = "高" →
          FinalOut.countLowMid preds < 3) := by
  have hperm : (FinalOut.priSorted preds).Perm preds := List.perm_insertionSort _ preds
  have hcntLM : FinalOut.countLowMid (FinalOut.priSorted preds)
      = FinalOut.countLowMid preds := hperm.countP_eq _
  have hcntH : FinalOut.countHigh (FinalOut.priSorted preds)
      = FinalOut.countHigh preds := hperm.countP_eq _
  have hndS : (FinalOut.priSorted preds).Nodup := hperm.symm.nodup hnd
  have hsel_len : (FinalOut.pickLowMid (FinalOut.priSorted preds) []).length
      = min (FinalOut.countLowMid preds) 5 := by
    have := FinalOut.pickLowMid_length (FinalOut.priSorted preds) []
      (by simp)
    simpa [hcntLM] using this
  have hsel_lowmid : ∀ q ∈ FinalOut.pickLowMid (FinalOut.priSorted preds) [],
      q.turbulence = "低" ∨ q.turbulence = "中" :=
    FinalOut.pickLowMid_lowmid (FinalOut.priSorted preds) [] (by simp)
  have hsel_sub : ∀ q ∈ FinalOut.pickLowMid (FinalOut.priSorted preds) [], q ∈ preds := by
    intro q hq
    rcases FinalOut.pickLowMid_mem (FinalOut.priSorted preds) [] q hq with h | h
    · simp at h
    · exact hperm.subset h
  unfold FinalOut.select_races
  dsimp only
  by_cases hc : (FinalOut.pickLowMid (FinalOut.priSorted preds) []).length < 3
  · rw [if_pos hc]
    have hdis : ∀ p ∈ FinalOut.priSorted preds, p.turbulence = "高" →
        p ∉ FinalOut.pickLowMid (FinalOut.priSorted preds) [] := by
      intro p _ hpH hmem
      rcases hsel_lowmid p hmem with h | h <;> rw [hpH] at h <;> exact absurd h (by decide)
    have hlen := FinalOut.addHighs_length (FinalOut.priSorted preds)
      (FinalOut.pickLowMid (FinalOut.priSorted preds) []) hndS hdis hc
    have hLM3 : FinalOut.countLowMid preds < 3 := by
      rw [hsel_len] at hc
      omega
    have hselc : (FinalOut.pickLowMid (FinalOut.priSorted preds) []).length
        = FinalOut.countLowMid preds := by
      rw [hsel_len]
      omega
    refine ⟨?_, ?_, ?_, ?_, ?_⟩
    · rw [hlen]
      omega
    · intro q hq
      rcases FinalOut.addHighs_mem (FinalOut.priSorted preds) _ q hq with h | h
      · exact hsel_sub q h
      · exact hperm.subset h
    · intro h3
      exact absurd h3 (by omega)
    · intro _
      rw [hlen, hselc, hcntH]
    · intro q _ _
      exact hLM3
  · rw [if_neg hc]
    refine ⟨?_, hsel_sub, ?_, ?_, ?_⟩
    · rw [hsel_len]
      omega
    · intro _
      exact ⟨hsel_len, hsel_lowmid⟩
    · intro h3
      rw [hsel_len] at hc
      omega
    · intro q hq hqH
      rcases hsel_lowmid q hq with h | h <;> rw [hqH] at h <;> exact absurd h (by decide)

/-- C7 counterexample: on a day with a single (low-volatility) prediction
the selector returns exactly that one race, so the output is not "3 to 5
races". -/
theorem c7_counterexample :
    (FinalOut.select_races [FinalOut.lonePred]).length = 1
      ∧ ¬(3 ≤ (FinalOut.select_races [FinalOut.lonePred]).length) := by
  decide

/-- C7 witness: the amended characterization applied to a duplicate-free
four-race day with three low/medium races. -/
theorem c7_witness :
    (FinalOut.select_races FinalOut.wpreds).length ≤ 5
      ∧ (∀ q ∈ FinalOut.select_races FinalOut.wpreds, q ∈ FinalOut.wpreds)
      ∧ (3 ≤ FinalOut.countLowMid FinalOut.wpreds →
          (FinalOut.select_races FinalOut.wpreds).length
              = min (FinalOut.countLowMid FinalOut.wpreds) 5
            ∧ ∀ q ∈ FinalOut.select_races FinalOut.wpreds,
                q.turbulence = "低" ∨ q.turbulence = "中")
      ∧ (FinalOut.countLowMid FinalOut.wpreds < 3 →
          (FinalOut.select_races FinalOut.wpreds).length
            = min (FinalOut.countLowMid FinalOut.wpreds
                + FinalOut.countHigh FinalOut.wpreds) 3)
      ∧ (∀ q ∈ FinalOut.select_races FinalOut.wpreds, q.turbulence = "高" →
          FinalOut.countLowMid FinalOut.wpreds < 3) :=
  c7_race_selector FinalOut.wpreds (by decide)
